import Mathlib

/-!
# autosync: debounced sync scheduling

A shallow embedding of `core/task.go`, `core/core.go` and `core/group.go`.

Conventions of the embedding.

* A Go function returning `(T, error)` becomes a function into
  `Option T × Option GoError`; `nil` is `none`.
* Channels of capacity one carrying `struct{}` become a `Bool`
  (`true`: the buffer holds a value).
* A `context.Context` is observed only through `Done()`, so it becomes a `Bool`.
* The goroutine `loopHandle` becomes a step function on the task state; the
  return of `doFunc` is one of its steps.
* A send on a channel whose receiver is blocked in `select` goes to that
  receiver directly and leaves the buffer empty, as the Go runtime does; only
  without a blocked receiver does the send use the buffer.
* Loggers are left out: no logging call influences control flow.
* Fields named `calls` and `log` are ghost state that records what happened.
-/

namespace Autosync

/-! ## Errors -/

/-- Go errors as built by `fmt.Errorf`: a bare message, or a message around
an error passed to the verb `%w`. -/
inductive GoError where
  | errorf (msg : String)
  | wrapf (msg : String) (inner : GoError)
  deriving DecidableEq, Repr

/-- The method `Error()`: the formatted message. -/
def GoError.Error : GoError → String
  | .errorf m => m
  | .wrapf m _ => m

/-- The method `Unwrap()`: the error given to `%w`, when there is one. -/
def GoError.Unwrap : GoError → Option GoError
  | .errorf _ => none
  | .wrapf _ e => some e

/-- The call `fmt.Errorf(pre + "%w" + post, err)`. -/
def GoError.wrapping (pre : String) (err : GoError) (post : String) : GoError :=
  .wrapf (pre ++ err.Error ++ post) err

/-! ## Task (core/task.go) -/

/-- Where the goroutine running `loopHandle` stands. -/
inductive Worker where
  /-- Created by `go t.loopHandle()`, the `select` not reached yet. -/
  | starting
  /-- At the `select` of the loop; with `ch` empty and the context live it is
  blocked there, waiting on both channels. -/
  | idle
  /-- Resumed from the `select` with the signal a sender handed over, about to
  call `doFunc`. -/
  | woken
  /-- Inside `t.doFunc(t.ctx, t.path)`. -/
  | running
  /-- After `return`, the deferred send on `closeCh` done. -/
  | exited
  deriving DecidableEq, Repr

/-- Ghost events of a task: `doFunc` entered, `doFunc` returned. -/
inductive TaskEv where
  | start
  | ret
  deriving DecidableEq, Repr

/-- The struct `Task` together with the state of its goroutine. -/
structure Task where
  /-- Field `path`. -/
  path : String
  /-- Whether `t.ctx.Done()` is closed. -/
  cancelled : Bool
  /-- Whether the buffer of `ch` (capacity 1) holds a signal. -/
  pending : Bool
  /-- Whether the buffer of `closeCh` (capacity 1) holds a signal. -/
  closeSig : Bool
  /-- State of the goroutine started by `NewTask`. -/
  worker : Worker
  /-- Ghost: number of times `Call` was entered. -/
  calls : Nat
  /-- Ghost: the `doFunc` events so far, oldest first. -/
  log : List TaskEv
  deriving DecidableEq, Repr

/-- The function `NewTask(ctx, path, doFunc)`: the child context is done exactly when the
parent is, both channels are empty and `go t.loopHandle()` has created the
goroutine. -/
def NewTask (ctxDone : Bool) (path : String) : Task :=
  { path := path, cancelled := ctxDone, pending := false, closeSig := false,
    worker := .starting, calls := 0, log := [] }

/-- The method `Call`: nothing when the context is done; otherwise a
non-blocking send on `ch`. The send goes straight to the goroutine when it is
blocked in `select` (the buffer stays empty), else into the buffer when that is
empty, else it is dropped. -/
def Task.Call (t : Task) : Task :=
  let t := { t with calls := t.calls + 1 }
  if t.cancelled then t
  else if t.worker = .idle ∧ t.pending = false then { t with worker := .woken }
  else if t.pending then t
  else { t with pending := true }

/-- The call `t.cancel()`. -/
def Task.cancel (t : Task) : Task :=
  { t with cancelled := true }

/-- Branch `case <-t.ch:` of `loopHandle`: take the signal, enter `doFunc`. -/
def Task.takeSignal (t : Task) : Task :=
  { t with pending := false, worker := .running, log := t.log ++ [.start] }

/-- Branch `case <-t.ctx.Done():` of `loopHandle`: return, and the deferred
function sends on `closeCh`. -/
def Task.exit (t : Task) : Task :=
  { t with worker := .exited, closeSig := true }

/-- The `select` of `loopHandle` with at least one case ready, or `none` when
no case is ready. `pickDone` settles it when both cases are ready. -/
def Task.selectReady (pickDone : Bool) (t : Task) : Option Task :=
  match t.cancelled, t.pending with
  | false, false => none
  | false, true => some t.takeSignal
  | true, false => some t.exit
  | true, true => if pickDone then some t.exit else some t.takeSignal

/-- One step of the goroutine `loopHandle`; `none` when it cannot move (it is
blocked in `select`, or it has returned). A goroutine that reaches the `select`
with no case ready blocks there. The return of `doFunc` leads back to the
`select`. -/
def Task.loopHandle (pickDone : Bool) (t : Task) : Option Task :=
  match t.worker with
  | .exited => none
  | .running => some { t with worker := .idle, log := t.log ++ [.ret] }
  | .woken => some { t with worker := .running, log := t.log ++ [.start] }
  | .starting =>
    match t.selectReady pickDone with
    | none => some { t with worker := .idle }
    | some t' => some t'
  | .idle => t.selectReady pickDone

/-- Run the goroutine until it cannot move, at most `fuel` steps; `pick i`
settles the `select` of the step taken with `i` steps of fuel left. -/
def Task.run : Nat → (Nat → Bool) → Task → Task
  | 0, _, t => t
  | fuel + 1, pick, t =>
    match t.loopHandle (pick fuel) with
    | none => t
    | some t' => Task.run fuel pick t'

/-- The method `Call` invoked `n` times in a row. -/
def Task.callN : Nat → Task → Task
  | 0, t => t
  | n + 1, t => Task.callN n t.Call

/-- Ghost: how many times `doFunc` has been entered. -/
def Task.invocations (t : Task) : Nat :=
  t.log.count .start

/-! ## Library boundary: regexp, fsnotify, os/exec -/

/-- A compiled `*regexp.Regexp`; the method `String()` returns the field
`expr`, the source text it was compiled from. -/
structure Regexp where
  expr : String
  deriving DecidableEq, Repr

/-- The function `regexp.Compile(expr)`. Which texts are rejected, and with what error, is
the parameter `parseErr`; an accepted text gives the expression that prints
back as that text. -/
def Compile (parseErr : String → Option GoError) (expr : String) :
    Except GoError Regexp :=
  match parseErr expr with
  | some err => .error err
  | none => .ok { expr := expr }

/-- The bits of `fsnotify.Op`. -/
def Create : Nat := 1

/-- Bit `fsnotify.Write`. -/
def Write : Nat := 2

/-- Bit `fsnotify.Remove`. -/
def Remove : Nat := 4

/-- Bit `fsnotify.Rename`. -/
def Rename : Nat := 8

/-- Bit `fsnotify.Chmod`. -/
def Chmod : Nat := 16

/-- An `fsnotify.Event`. -/
structure Event where
  Name : String
  Op : Nat
  deriving DecidableEq, Repr

/-- The method `Event.Has(op)`: the bits of `op` are set in `e.Op`. -/
def Event.Has (e : Event) (op : Nat) : Bool :=
  e.Op &&& op == op

/-- An `*fsnotify.Watcher`, reduced to the paths it watches. -/
structure Watcher where
  watches : List String
  deriving DecidableEq, Repr

/-- A successful `watcher.Add(path)`. -/
def Watcher.Add (w : Watcher) (path : String) : Watcher :=
  if path ∈ w.watches then w else { watches := w.watches ++ [path] }

/-- The call `watcher.Remove(path)`. -/
def Watcher.Remove (w : Watcher) (path : String) : Watcher :=
  { watches := w.watches.filter (fun p => p != path) }

/-- The fields of `*exec.Cmd` that `newCommand` sets. -/
structure Cmd where
  Args : List String
  Dir : String
  Env : List String
  deriving DecidableEq, Repr

/-- The function `exec.CommandContext(ctx, name)`: the argument vector starts as `[name]`. -/
def CommandContext (name : String) : Cmd :=
  { Args := [name], Dir := "", Env := [] }

/-! ## SingleCore (core/core.go, core/option.go) -/

/-- Constant `filterModeExclude`. -/
def filterModeExclude : String := "exclude"

/-- Constant `filterModeInclude`. -/
def filterModeInclude : String := "include"

/-- The struct `CoreOptions`; a `util.Listable[string]` is a list. -/
structure CoreOptions where
  Dir : String
  RclonePath : String
  RcloneConfig : String
  Arg : List String
  FilterRule : List String
  FilterMode : String
  RemotePath : List String
  deriving DecidableEq, Repr

/-- The struct `SingleCore`. `watcher` is `none` and `tasks` is empty until
`Init` has run. -/
structure SingleCore where
  /-- Whether `ctx.Done()` is closed. -/
  ctxDone : Bool
  dir : String
  rclonePath : String
  rcloneConfig : String
  args : List String
  filterRules : List Regexp
  filterMode : String
  remotePaths : List String
  watcher : Option Watcher
  tasks : List Task
  deriving DecidableEq, Repr

/-- The loop of `NewSingleCore` over `options.FilterRule`: compile rule `i`,
return at the first error, otherwise append to `s.filterRules`. -/
def compileRules (parseErr : String → Option GoError) :
    Nat → List String → List Regexp → Except GoError (List Regexp)
  | _, [], acc => .ok acc
  | i, r :: rest, acc =>
    match Compile parseErr r with
    | .error err =>
      .error (GoError.wrapping ("invalid filter_rule[" ++ toString i ++ "]: ") err "")
    | .ok re => compileRules parseErr (i + 1) rest (acc ++ [re])

/-- The `switch s.filterMode` of `NewSingleCore`: the pipeline after it, or
the error it returns. -/
def switchFilterMode (s : SingleCore) (options : CoreOptions) :
    Except GoError SingleCore :=
  if s.filterMode = "" then
    .ok { s with filterMode := filterModeExclude }
  else if s.filterMode = filterModeExclude ∨ s.filterMode = filterModeInclude then
    if options.FilterRule.length = 0 then
      .error (.errorf "missing filter_rule")
    else .ok s
  else
    .error (.errorf ("invalid filter_mode: " ++ s.filterMode))

/-- The function `NewSingleCore`. -/
def NewSingleCore (parseErr : String → Option GoError) (ctxDone : Bool)
    (options : CoreOptions) : Option SingleCore × Option GoError :=
  let s : SingleCore :=
    { ctxDone := ctxDone
      dir := options.Dir
      rclonePath := options.RclonePath
      rcloneConfig := options.RcloneConfig
      args := options.Arg
      filterRules := []
      filterMode := options.FilterMode
      remotePaths := options.RemotePath
      watcher := none
      tasks := [] }
  if s.dir = "" then (none, some (.errorf "missing dir"))
  else if s.rclonePath = "" then (none, some (.errorf "missing rclone_path"))
  else if s.rcloneConfig = "" then (none, some (.errorf "missing rclone_config"))
  else if s.remotePaths.length = 0 then (none, some (.errorf "missing remote_path"))
  else
    match switchFilterMode s options with
    | .error err => (none, some err)
    | .ok s =>
      if options.FilterRule.length > 0 then
        match compileRules parseErr 0 options.FilterRule [] with
        | .error err => (none, some err)
        | .ok rules => (some { s with filterRules := rules }, none)
      else (some s, none)

/-- What `newWatcher` meets outside the program. -/
structure WalkEntry where
  path : String
  isDir : Bool
  /-- The error `filepath.Walk` hands to the callback for this entry. -/
  err : Option GoError
  deriving DecidableEq, Repr

/-- The surroundings of `Init`. -/
structure InitEnv where
  /-- The error of `fsnotify.NewWatcher()`. -/
  newWatcherErr : Option GoError
  /-- The entries `filepath.Walk(s.dir, ...)` visits, in order. -/
  walk : List WalkEntry
  /-- The error of `watcher.Add(path)`. -/
  addErr : String → Option GoError

/-- The callback of `filepath.Walk` in `newWatcher`, run over the entries;
the walk stops at the first error the callback returns. -/
def walkDirs (addErr : String → Option GoError) :
    List WalkEntry → Watcher → Except GoError Watcher
  | [], w => .ok w
  | d :: rest, w =>
    match d.err with
    | some err => .error err
    | none =>
      if d.isDir then
        match addErr d.path with
        | some err => .error err
        | none => walkDirs addErr rest (w.Add d.path)
      else walkDirs addErr rest w

/-- The method `newWatcher`. -/
def SingleCore.newWatcher (env : InitEnv) (_s : SingleCore) :
    Option Watcher × Option GoError :=
  match env.newWatcherErr with
  | some err => (none, some (GoError.wrapping "failed to create fs watcher: " err ""))
  | none =>
    match walkDirs env.addErr env.walk { watches := [] } with
    | .error err => (none, some (GoError.wrapping "failed to watch fs: " err ""))
    | .ok w => (some w, none)

/-- The loop of `filter` over `s.filterRules`. -/
def SingleCore.filterLoop (MatchString : Regexp → String → Bool) (s : SingleCore)
    (path : String) : List Regexp → Bool
  | [] => s.filterMode == filterModeExclude
  | r :: rest =>
    if MatchString r path then s.filterMode == filterModeInclude
    else SingleCore.filterLoop MatchString s path rest

/-- The method `filter`; `MatchString r path` stands for `r.MatchString(path)`. -/
def SingleCore.filter (MatchString : Regexp → String → Bool) (s : SingleCore)
    (path : String) : Bool :=
  if s.filterRules.length = 0 then true
  else SingleCore.filterLoop MatchString s path s.filterRules

/-- The loop of `newCommand` building `args` from `s.filterRules`. -/
def SingleCore.filterArgs (s : SingleCore) : List String :=
  s.filterRules.foldl
    (fun args r =>
      if s.filterMode = filterModeInclude then
        args ++ ["--include", "'" ++ r.expr ++ "'"]
      else
        args ++ ["--exclude", "'" ++ r.expr ++ "'"])
    []

/-- The method `newCommand`; `environ` stands for `os.Environ()`. -/
def SingleCore.newCommand (environ : List String) (s : SingleCore)
    (remotePath : String) : Cmd :=
  let cmd := CommandContext s.rclonePath
  let cmd := { cmd with Dir := s.dir }
  let cmd := { cmd with Env := environ }
  let cmd := { cmd with Env := cmd.Env ++ ["RCLONE_IGNORE_ERRORS=true"] }
  let cmd :=
    { cmd with
      Args := cmd.Args ++ ["sync", "-v", "--config", s.rcloneConfig, s.dir, remotePath] }
  if s.filterRules.length > 0 then
    { cmd with Args := cmd.Args ++ s.filterArgs }
  else cmd

/-- The method `call`. -/
def SingleCore.call (s : SingleCore) : SingleCore :=
  { s with tasks := s.tasks.map Task.Call }

/-- The method `Init`: the pipeline afterwards and the error returned. -/
def SingleCore.Init (env : InitEnv) (s : SingleCore) : SingleCore × Option GoError :=
  match s.newWatcher env with
  | (_, some err) => (s, some err)
  | (watcher, none) =>
    ({ s with watcher := watcher, tasks := s.remotePaths.map (NewTask s.ctxDone) }, none)

/-- The outcome of `os.Stat(event.Name)`. -/
inductive StatResult where
  | failed (err : GoError)
  | isDir
  | notDir
  deriving DecidableEq, Repr

/-- The surroundings of one event of `Run`. -/
structure EventEnv where
  stat : StatResult
  /-- The error of `s.watcher.Add(event.Name)`. -/
  addErr : Option GoError
  /-- The constant `runtime.GOOS`. -/
  goos : String

/-- The `switch` of `Run` on a received event: the pipeline after the case
taken, or `none` for `default: continue`. -/
def SingleCore.classify (env : EventEnv) (s : SingleCore) (event : Event) :
    Option SingleCore :=
  if event.Has Create then
    match env.stat with
    | .failed _ => some s
    | .isDir =>
      match env.addErr with
      | some _ => some s
      | none => some { s with watcher := s.watcher.map (fun w => w.Add event.Name) }
    | .notDir => some s
  else if event.Has Write then some s
  else if event.Has Remove then
    if env.goos = "windows" then
      some { s with watcher := s.watcher.map (fun w => w.Remove event.Name) }
    else some s
  else if event.Has Rename then some s
  else none

/-- The body of `case event, ok := <-s.watcher.Events:` of `Run` for a
received event (`ok` true). -/
def SingleCore.onEvent (MatchString : Regexp → String → Bool) (env : EventEnv)
    (s : SingleCore) (event : Event) : SingleCore :=
  match s.classify env event with
  | none => s
  | some s => if s.filter MatchString event.Name then s.call else s

/-! ## CoreGroup (core/group.go) -/

/-- The struct `CoreGroup`; a slot of `cores` is `none` while it is `nil`. -/
structure CoreGroup where
  ctxDone : Bool
  dirs : List String
  cores : List (Option SingleCore)
  deriving DecidableEq, Repr

/-- The loop of `NewCoreGroup` over `options`, from index `i`. -/
def newCoreGroupLoop (parseErr : String → Option GoError) (ctxDone : Bool) :
    Nat → List CoreOptions → CoreGroup → Option CoreGroup × Option GoError
  | _, [], g => (some g, none)
  | i, o :: rest, g =>
    match NewSingleCore parseErr ctxDone o with
    | (_, some err) =>
      (none, some (GoError.wrapping ("create core[" ++ toString i ++ "] failed: ") err ""))
    | (c, none) =>
      newCoreGroupLoop parseErr ctxDone (i + 1) rest
        { g with cores := g.cores.set i c, dirs := g.dirs.set i o.Dir }

/-- The function `NewCoreGroup`. -/
def NewCoreGroup (parseErr : String → Option GoError) (ctxDone : Bool)
    (options : List CoreOptions) : Option CoreGroup × Option GoError :=
  let g : CoreGroup := { ctxDone := ctxDone, dirs := [], cores := [] }
  if options.length = 0 then (none, some (.errorf "missing options"))
  else
    let g := { g with cores := List.replicate options.length none }
    let g := { g with dirs := List.replicate options.length "" }
    newCoreGroupLoop parseErr ctxDone 0 options g

/-- The conditions on the options under which `NewSingleCore` returns no error
(`NewSingleCore_accepted` and `NewSingleCore_no_error` below relate them to the
code). -/
def CoreOptions.accepted (parseErr : String → Option GoError) (o : CoreOptions) : Prop :=
  o.Dir ≠ "" ∧ o.RclonePath ≠ "" ∧ o.RcloneConfig ≠ "" ∧ o.RemotePath ≠ [] ∧
  (o.FilterMode = "" ∨ o.FilterMode = "exclude" ∨ o.FilterMode = "include") ∧
  ((o.FilterMode = "exclude" ∨ o.FilterMode = "include") → o.FilterRule ≠ []) ∧
  ∀ r ∈ o.FilterRule, parseErr r = none

/-- The pipeline `NewSingleCore` turns out to return on accepted options
(`NewSingleCore_accepted` below). -/
def CoreOptions.built (ctxDone : Bool) (o : CoreOptions) : SingleCore :=
  { ctxDone := ctxDone
    dir := o.Dir
    rclonePath := o.RclonePath
    rcloneConfig := o.RcloneConfig
    args := o.Arg
    filterRules := o.FilterRule.map Regexp.mk
    filterMode := if o.FilterMode = "" then filterModeExclude else o.FilterMode
    remotePaths := o.RemotePath
    watcher := none
    tasks := [] }

/-! ## Sample configurations -/

/-- The scenario of the specification: root `/data`, one destination, mode
`exclude`, one rule. -/
def scenarioOptions : CoreOptions :=
  { Dir := "/data", RclonePath := "rclone", RcloneConfig := "rclone.conf", Arg := [],
    FilterRule := ["\\.tmp$"], FilterMode := "exclude", RemotePath := ["remote:/backup"] }

/-- A configuration with the filter mode left unset and no rule. -/
def unsetModeOptions : CoreOptions :=
  { scenarioOptions with FilterRule := [], FilterMode := "" }

/-- A configuration with the filter mode left unset and one rule. -/
def unsetModeWithRule : CoreOptions :=
  { scenarioOptions with FilterMode := "" }

/-- A configuration with one extra tool argument. -/
def extraArgOptions : CoreOptions :=
  { scenarioOptions with Arg := ["--dry-run"] }

/-- A compiler that accepts every pattern. -/
def acceptAll : String → Option GoError :=
  fun _ => none

/-- A compiler that rejects exactly the pattern `(`. -/
def rejectParen : String → Option GoError :=
  fun r => if r = "(" then some (.errorf "missing closing )") else none

/-- The scenario with a second rule, which `rejectParen` does not compile. -/
def badRuleOptions : CoreOptions :=
  { scenarioOptions with FilterRule := ["\\.tmp$", "("] }

/-- A matcher for the samples: the pattern `\.tmp$` matches the paths ending in
`.tmp`, any other pattern matches nothing. -/
def sampleMatch (r : Regexp) (path : String) : Bool :=
  r.expr == "\\.tmp$" && ".tmp".toList.isSuffixOf path.toList

/-- A pipeline in mode `include` with the two rules `a` and `b`. -/
def includeCore : SingleCore :=
  { ctxDone := false, dir := "/data", rclonePath := "rclone", rcloneConfig := "rclone.conf",
    args := [], filterRules := [{ expr := "a" }, { expr := "b" }],
    filterMode := filterModeInclude, remotePaths := ["remote:/backup"],
    watcher := none, tasks := [] }

/-- Surroundings of `Init` in which nothing fails: the root and one
subdirectory are walked. -/
def sampleInitEnv : InitEnv :=
  { newWatcherErr := none
    walk := [{ path := "/data", isDir := true, err := none },
             { path := "/data/a.txt", isDir := false, err := none },
             { path := "/data/sub", isDir := true, err := none }]
    addErr := fun _ => none }

/-- Surroundings of an event: the path is a regular file, on linux. -/
def sampleEventEnv : EventEnv :=
  { stat := .notDir, addErr := none, goos := "linux" }

/-- The scenario with a second destination. -/
def twoRemoteOptions : CoreOptions :=
  { scenarioOptions with RemotePath := ["remote:/backup", "other:/mirror"] }

/-- The pipeline built from `twoRemoteOptions`, before `Init`. -/
def twoRemoteCore : SingleCore :=
  twoRemoteOptions.built false

/-- Three configuration entries, the last with a rule that `rejectParen` does
not compile. -/
def threeEntries : List CoreOptions :=
  [scenarioOptions, twoRemoteOptions, badRuleOptions]

/-- A fresh task whose goroutine has reached its `select` and blocked there. -/
def blockedTask : Task :=
  Task.run 1 (fun _ => true) (NewTask false "remote:/backup")

/-! ### Lemmas on tasks -/

theorem Task.callN_live (n : Nat) (t : Task) (hc : t.cancelled = false)
    (hw : t.worker ≠ .idle) :
    Task.callN n t =
      { t with calls := t.calls + n, pending := t.pending || decide (0 < n) } := by
  induction n generalizing t with
  | zero => simp [Task.callN]
  | succ n ih =>
    obtain ⟨path, c, p, cs, w, k, l⟩ := t
    simp only at hc hw
    subst hc
    have hcall : Task.Call
        { path := path, cancelled := false, pending := p, closeSig := cs, worker := w,
          calls := k, log := l } =
        { path := path, cancelled := false, pending := true, closeSig := cs, worker := w,
          calls := k + 1, log := l } := by
      cases p <;> simp [Task.Call, hw]
    rw [Task.callN, hcall, ih _ rfl hw]
    simp
    omega

theorem Task.callN_blocked (n : Nat) (path : String) (cs : Bool) (k : Nat)
    (l : List TaskEv) :
    Task.callN (n + 1)
      { path := path, cancelled := false, pending := false, closeSig := cs,
        worker := .idle, calls := k, log := l } =
      { path := path, cancelled := false, pending := decide (0 < n), closeSig := cs,
        worker := .woken, calls := k + (n + 1), log := l } := by
  have hcall : Task.Call
      { path := path, cancelled := false, pending := false, closeSig := cs,
        worker := .idle, calls := k, log := l } =
      { path := path, cancelled := false, pending := false, closeSig := cs,
        worker := .woken, calls := k + 1, log := l } := by
    simp [Task.Call]
  rw [Task.callN, hcall, Task.callN_live n _ rfl (by simp)]
  simp
  omega

theorem Task.run_blocked (fuel : Nat) (pick : Nat → Bool) (t : Task)
    (h : ∀ b, t.loopHandle b = none) : Task.run fuel pick t = t := by
  cases fuel with
  | zero => rfl
  | succ n => simp [Task.run, h]

theorem Task.run_parked (fuel : Nat) (pick : Nat → Bool) (path : String) (cs : Bool)
    (k : Nat) (l : List TaskEv) :
    Task.run fuel pick
      { path := path, cancelled := false, pending := false, closeSig := cs,
        worker := .idle, calls := k, log := l } =
      { path := path, cancelled := false, pending := false, closeSig := cs,
        worker := .idle, calls := k, log := l } :=
  Task.run_blocked _ _ _ (fun _ => rfl)

theorem Task.run_signalled (f : Nat) (pick : Nat → Bool) (path : String) (cs : Bool)
    (k : Nat) (l : List TaskEv) :
    Task.run (f + 2) pick
      { path := path, cancelled := false, pending := true, closeSig := cs,
        worker := .idle, calls := k, log := l } =
      { path := path, cancelled := false, pending := false, closeSig := cs,
        worker := .idle, calls := k, log := l ++ [.start, .ret] } := by
  show Task.run f pick
      { path := path, cancelled := false, pending := false, closeSig := cs,
        worker := .idle, calls := k, log := l ++ [.start] ++ [.ret] } = _
  rw [Task.run_parked]
  simp

theorem Task.run_running (f : Nat) (pick : Nat → Bool) (path : String) (cs : Bool)
    (k : Nat) (l : List TaskEv) :
    Task.run (f + 3) pick
      { path := path, cancelled := false, pending := true, closeSig := cs,
        worker := .running, calls := k, log := l } =
      { path := path, cancelled := false, pending := false, closeSig := cs,
        worker := .idle, calls := k, log := l ++ [.ret, .start, .ret] } := by
  show Task.run (f + 2) pick
      { path := path, cancelled := false, pending := true, closeSig := cs,
        worker := .idle, calls := k, log := l ++ [.ret] } = _
  rw [Task.run_signalled]
  simp

theorem Task.run_woken_alone (f : Nat) (pick : Nat → Bool) (path : String) (cs : Bool)
    (k : Nat) (l : List TaskEv) :
    Task.run (f + 2) pick
      { path := path, cancelled := false, pending := false, closeSig := cs,
        worker := .woken, calls := k, log := l } =
      { path := path, cancelled := false, pending := false, closeSig := cs,
        worker := .idle, calls := k, log := l ++ [.start, .ret] } := by
  show Task.run f pick
      { path := path, cancelled := false, pending := false, closeSig := cs,
        worker := .idle, calls := k, log := l ++ [.start] ++ [.ret] } = _
  rw [Task.run_parked]
  simp

theorem Task.run_woken_pending (f : Nat) (pick : Nat → Bool) (path : String) (cs : Bool)
    (k : Nat) (l : List TaskEv) :
    Task.run (f + 4) pick
      { path := path, cancelled := false, pending := true, closeSig := cs,
        worker := .woken, calls := k, log := l } =
      { path := path, cancelled := false, pending := false, closeSig := cs,
        worker := .idle, calls := k, log := l ++ [.start, .ret, .start, .ret] } := by
  show Task.run (f + 3) pick
      { path := path, cancelled := false, pending := true, closeSig := cs,
        worker := .running, calls := k, log := l ++ [.start] } = _
  rw [Task.run_running]
  simp

theorem Task.run_starting_empty (f : Nat) (pick : Nat → Bool) (path : String) (cs : Bool)
    (k : Nat) (l : List TaskEv) :
    Task.run (f + 1) pick
      { path := path, cancelled := false, pending := false, closeSig := cs,
        worker := .starting, calls := k, log := l } =
      { path := path, cancelled := false, pending := false, closeSig := cs,
        worker := .idle, calls := k, log := l } := by
  show Task.run f pick
      { path := path, cancelled := false, pending := false, closeSig := cs,
        worker := .idle, calls := k, log := l } = _
  rw [Task.run_parked]

theorem Task.run_starting_pending (f : Nat) (pick : Nat → Bool) (path : String)
    (cs : Bool) (k : Nat) (l : List TaskEv) :
    Task.run (f + 2) pick
      { path := path, cancelled := false, pending := true, closeSig := cs,
        worker := .starting, calls := k, log := l } =
      { path := path, cancelled := false, pending := false, closeSig := cs,
        worker := .idle, calls := k, log := l ++ [.start, .ret] } := by
  show Task.run f pick
      { path := path, cancelled := false, pending := false, closeSig := cs,
        worker := .idle, calls := k, log := l ++ [.start] ++ [.ret] } = _
  rw [Task.run_parked]
  simp

/-! ### Debouncing -/

/-- C1 fails as stated: a goroutine blocked in its `select`, with an empty
buffer and a live context, receives two calls of `Call`. The first is handed to
the goroutine, the second fills the buffer, and the run that follows enters
`doFunc` twice before the goroutine blocks again. -/
theorem Task.two_calls_two_syncs :
    blockedTask.worker = .idle ∧ blockedTask.pending = false ∧
    blockedTask.cancelled = false ∧
    (Task.callN 2 blockedTask).worker = .woken ∧
    (Task.callN 2 blockedTask).pending = true ∧
    (Task.run 6 (fun _ => true) (Task.callN 2 blockedTask)).log =
      [.start, .ret, .start, .ret] ∧
    (Task.run 6 (fun _ => true) (Task.callN 2 blockedTask)).invocations = 2 ∧
    (∀ b, (Task.run 6 (fun _ => true) (Task.callN 2 blockedTask)).loopHandle b = none) :=
  ⟨rfl, rfl, rfl, rfl, rfl, rfl, rfl, fun _ => rfl⟩

/-- C1, amended: a task with an empty buffer and a live context, whose
goroutine either is blocked in its `select` or has not reached it yet, receives
`N` calls of `Call`; the goroutine is then run until it cannot move (any fuel of
at least four steps is enough). It ends blocked in its `select` with an empty
buffer. When it had not reached the `select`, `doFunc` has been entered and
left exactly once for `N ≥ 1` and not at all for `N = 0`. When it was blocked,
`doFunc` has been entered and left not at all for `N = 0`, once for `N = 1` and
twice, one run after the other, for `N ≥ 2`. -/
theorem Task.debounce_idle (N fuel : Nat) (pick : Nat → Bool) (t : Task)
    (hw : t.worker = .idle ∨ t.worker = .starting) (hp : t.pending = false)
    (hc : t.cancelled = false) (hf : 4 ≤ fuel) :
    (∀ b, (Task.run fuel pick (Task.callN N t)).loopHandle b = none) ∧
    (Task.run fuel pick (Task.callN N t)).worker = .idle ∧
    (Task.run fuel pick (Task.callN N t)).pending = false ∧
    (Task.run fuel pick (Task.callN N t)).log =
      t.log ++
        (if N = 0 then []
         else if N = 1 ∨ t.worker = .starting then [.start, .ret]
         else [.start, .ret, .start, .ret]) ∧
    (Task.run fuel pick (Task.callN N t)).invocations =
      t.invocations + (if t.worker = .starting then min N 1 else min N 2) := by
  obtain ⟨path, c, p, cs, w, k, l⟩ := t
  simp only at hw hp hc
  subst hp hc
  obtain ⟨f, rfl⟩ : ∃ f, fuel = f + 4 := ⟨fuel - 4, by omega⟩
  rcases hw with rfl | rfl
  · rcases N with _ | _ | n
    · simp [Task.callN, Task.run_parked, Task.loopHandle, Task.selectReady,
        Task.invocations]
    · rw [Task.callN_blocked 0]
      simp [Task.run_woken_alone (f + 2), Task.loopHandle, Task.selectReady,
        Task.invocations, List.count_append]
    · rw [Task.callN_blocked (n + 1)]
      simp [Task.run_woken_pending, Task.loopHandle, Task.selectReady,
        Task.invocations, List.count_append]
  · rw [Task.callN_live N _ rfl (by simp)]
    rcases N with _ | n
    · simp [Task.run_starting_empty (f + 3), Task.loopHandle, Task.selectReady,
        Task.invocations]
    · simp [Task.run_starting_pending (f + 2), Task.loopHandle, Task.selectReady,
        Task.invocations, List.count_append]

/-- Witness of C1 amended: five calls on a blocked goroutine give two runs of
`doFunc`; five calls on a goroutine that has not reached its `select` give one. -/
theorem Task.debounce_idle_witness :
    (Task.run 6 (fun _ => true) (Task.callN 5 blockedTask)).log =
      [.start, .ret, .start, .ret] ∧
    (Task.run 4 (fun _ => true) (Task.callN 5 (NewTask false "remote:/backup"))).log =
      [.start, .ret] :=
  ⟨(Task.debounce_idle 5 6 (fun _ => true) blockedTask (Or.inl rfl) rfl rfl
      (by decide)).2.2.2.1,
   (Task.debounce_idle 5 4 (fun _ => true) (NewTask false "remote:/backup")
      (Or.inr rfl) rfl rfl (by decide)).2.2.2.1⟩

/-- C2: the goroutine is inside `doFunc` with an empty buffer and a live
context, and `K ≥ 1` calls of `Call` arrive before `doFunc` returns. Run until
it cannot move (any fuel of at least three steps is enough), the goroutine
records exactly: the running `doFunc` returns, `doFunc` is entered once more, it
returns; then the goroutine is parked. The count of entries grows by one
whatever `K` is, and the new entry comes after the return of the running one. -/
theorem Task.debounce_running (K fuel : Nat) (pick : Nat → Bool) (t : Task)
    (hw : t.worker = .running) (hp : t.pending = false) (hc : t.cancelled = false)
    (hK : 1 ≤ K) (hf : 3 ≤ fuel) :
    (∀ b, (Task.run fuel pick (Task.callN K t)).loopHandle b = none) ∧
    (Task.run fuel pick (Task.callN K t)).worker = .idle ∧
    (Task.run fuel pick (Task.callN K t)).pending = false ∧
    (Task.run fuel pick (Task.callN K t)).log = t.log ++ [.ret, .start, .ret] ∧
    (Task.run fuel pick (Task.callN K t)).invocations = t.invocations + 1 := by
  obtain ⟨path, c, p, cs, w, k, l⟩ := t
  simp only at hw hp hc
  subst hw hp hc
  obtain ⟨f, rfl⟩ : ∃ f, fuel = f + 3 := ⟨fuel - 3, by omega⟩
  rw [Task.callN_live K _ rfl (by simp)]
  have hd : (false || decide (0 < K)) = true := by simp; omega
  simp [hd, Task.run_running, Task.loopHandle, Task.selectReady, Task.invocations,
    List.count_append]

/-- Witness of C2: one call starts a sync on a fresh task, then seven calls
arrive while it runs. -/
theorem Task.debounce_running_witness :
    (Task.run 5 (fun _ => false)
      (Task.callN 7 (Task.run 1 (fun _ => false) (NewTask false "r").Call))).log =
      [.start, .ret, .start, .ret] :=
  (Task.debounce_running 7 5 (fun _ => false)
    (Task.run 1 (fun _ => false) (NewTask false "r").Call) rfl rfl rfl
    (by decide) (by decide)).2.2.2.1

/-! ### The path filter -/

theorem SingleCore.filterLoop_include (M : Regexp → String → Bool) (s : SingleCore)
    (path : String) (h : s.filterMode = filterModeInclude) (rules : List Regexp) :
    SingleCore.filterLoop M s path rules = true ↔ ∃ r ∈ rules, M r path = true := by
  induction rules with
  | nil => simp [SingleCore.filterLoop, h, filterModeInclude, filterModeExclude]
  | cons r rest ih =>
    by_cases hm : M r path = true
    · simp [SingleCore.filterLoop, hm, h]
    · simp [SingleCore.filterLoop, hm, ih]

theorem SingleCore.filterLoop_exclude (M : Regexp → String → Bool) (s : SingleCore)
    (path : String) (h : s.filterMode = filterModeExclude) (rules : List Regexp) :
    SingleCore.filterLoop M s path rules = true ↔ ∀ r ∈ rules, M r path = false := by
  induction rules with
  | nil => simp [SingleCore.filterLoop, h]
  | cons r rest ih =>
    by_cases hm : M r path = true
    · simp [SingleCore.filterLoop, hm, h, filterModeInclude, filterModeExclude]
    · simp [SingleCore.filterLoop, hm, ih]

/-- C3: with a non-empty rule list and any matcher, in mode `include` the
filter accepts a path exactly when some rule matches it, and in mode `exclude`
exactly when no rule matches it. -/
theorem SingleCore.filter_nonempty (M : Regexp → String → Bool) (s : SingleCore)
    (path : String) (hne : s.filterRules ≠ []) :
    (s.filterMode = filterModeInclude →
      (s.filter M path = true ↔ ∃ r ∈ s.filterRules, M r path = true)) ∧
    (s.filterMode = filterModeExclude →
      (s.filter M path = true ↔ ∀ r ∈ s.filterRules, M r path = false)) := by
  have hlen : ¬ s.filterRules.length = 0 := by
    simpa [List.length_eq_zero] using hne
  constructor
  · intro h
    simp only [SingleCore.filter, hlen, if_false]
    exact SingleCore.filterLoop_include M s path h _
  · intro h
    simp only [SingleCore.filter, hlen, if_false]
    exact SingleCore.filterLoop_exclude M s path h _

/-- Witness of C3: both modes on a two-rule list, with the matcher that
compares the pattern text with the path. -/
theorem SingleCore.filter_nonempty_witness :
    (includeCore.filter (fun r p => r.expr == p) "b" = true ↔
      ∃ r ∈ includeCore.filterRules, (r.expr == "b") = true) ∧
    (({ includeCore with filterMode := filterModeExclude } : SingleCore).filter
        (fun r p => r.expr == p) "c" = true ↔
      ∀ r ∈ includeCore.filterRules, (r.expr == "c") = false) :=
  ⟨(SingleCore.filter_nonempty (fun r p => r.expr == p) includeCore "b"
      (by decide)).1 rfl,
   (SingleCore.filter_nonempty (fun r p => r.expr == p)
      { includeCore with filterMode := filterModeExclude } "c" (by decide)).2 rfl⟩

/-- C4: with an empty rule list the filter accepts every path, whatever the
mode is, `include` and `exclude` among them. -/
theorem SingleCore.filter_empty (M : Regexp → String → Bool) (s : SingleCore)
    (path : String) (hnil : s.filterRules = []) :
    s.filter M path = true := by
  simp [SingleCore.filter, hnil]

/-- Witness of C4: the two modes on a pipeline without rules. -/
theorem SingleCore.filter_empty_witness :
    ({ includeCore with filterRules := [] } : SingleCore).filter sampleMatch "/data/x.tmp"
      = true ∧
    ({ includeCore with filterRules := [], filterMode := filterModeExclude } :
      SingleCore).filter sampleMatch "/data/x.tmp" = true :=
  ⟨SingleCore.filter_empty sampleMatch { includeCore with filterRules := [] }
      "/data/x.tmp" rfl,
   SingleCore.filter_empty sampleMatch
      { includeCore with filterRules := [], filterMode := filterModeExclude }
      "/data/x.tmp" rfl⟩

/-! ### The event step of `Run` -/

theorem SingleCore.filterLoop_congr (M : Regexp → String → Bool) (s s' : SingleCore)
    (path : String) (hm : s'.filterMode = s.filterMode) (rules : List Regexp) :
    SingleCore.filterLoop M s' path rules = SingleCore.filterLoop M s path rules := by
  induction rules with
  | nil => simp [SingleCore.filterLoop, hm]
  | cons r rest ih => simp [SingleCore.filterLoop, hm, ih]

theorem SingleCore.filter_congr (M : Regexp → String → Bool) (s s' : SingleCore)
    (path : String) (hr : s'.filterRules = s.filterRules)
    (hm : s'.filterMode = s.filterMode) :
    s'.filter M path = s.filter M path := by
  simp [SingleCore.filter, hr, SingleCore.filterLoop_congr M s s' path hm]

theorem SingleCore.classify_some (env : EventEnv) (s s' : SingleCore) (event : Event)
    (h : s.classify env event = some s') :
    s'.filterRules = s.filterRules ∧ s'.filterMode = s.filterMode ∧ s'.tasks = s.tasks := by
  unfold SingleCore.classify at h
  split_ifs at h
  · split at h
    · cases h; exact ⟨rfl, rfl, rfl⟩
    · split at h <;> cases h <;> exact ⟨rfl, rfl, rfl⟩
    · cases h; exact ⟨rfl, rfl, rfl⟩
  all_goals (cases h; exact ⟨rfl, rfl, rfl⟩)

theorem SingleCore.classify_none (env : EventEnv) (s : SingleCore) (event : Event) :
    s.classify env event = none ↔
      (event.Has Create = false ∧ event.Has Write = false ∧
        event.Has Remove = false ∧ event.Has Rename = false) := by
  unfold SingleCore.classify
  cases event.Has Create <;> cases event.Has Write <;> cases event.Has Remove <;>
    cases event.Has Rename <;> simp <;> (try split) <;> (try split) <;> simp

/-- C5: one received event of `Run`. When the operation has none of the bits
create, write, remove, rename, no task sees `Call`. Otherwise, when the filter
accepts the event path every task of the pipeline goes through `Call` exactly
once (its ghost counter grows by one), and when the filter rejects it no task
sees `Call`. The tasks are those `Init` made, one per configured remote path, in
order. -/
theorem SingleCore.onEvent_calls (M : Regexp → String → Bool) (env : EventEnv)
    (s : SingleCore) (event : Event) :
    ((event.Has Create = false ∧ event.Has Write = false ∧
        event.Has Remove = false ∧ event.Has Rename = false) →
      (s.onEvent M env event).tasks = s.tasks) ∧
    ((event.Has Create = true ∨ event.Has Write = true ∨
        event.Has Remove = true ∨ event.Has Rename = true) →
      (s.filter M event.Name = true →
        (s.onEvent M env event).tasks = s.tasks.map Task.Call ∧
        (s.onEvent M env event).tasks.map Task.calls = s.tasks.map (fun t => t.calls + 1) ∧
        (s.onEvent M env event).tasks.map Task.path = s.tasks.map Task.path) ∧
      (s.filter M event.Name = false → (s.onEvent M env event).tasks = s.tasks)) ∧
    (∀ (ienv : InitEnv) (s' : SingleCore), s.Init ienv = (s', none) →
      s'.tasks.map Task.path = s.remotePaths ∧ s'.remotePaths = s.remotePaths ∧
      s'.tasks.length = s.remotePaths.length) := by
  have hcalls : ∀ t : Task, t.Call.calls = t.calls + 1 ∧ t.Call.path = t.path := by
    intro t
    simp only [Task.Call]
    split_ifs <;> exact ⟨rfl, rfl⟩
  refine ⟨?_, ?_, ?_⟩
  · intro h
    have hn := (SingleCore.classify_none env s event).2 h
    simp [SingleCore.onEvent, hn]
  · intro h
    cases hcl : s.classify env event with
    | none =>
      have hn := (SingleCore.classify_none env s event).1 hcl
      simp [hn.1, hn.2.1, hn.2.2.1, hn.2.2.2] at h
    | some s1 =>
      obtain ⟨hr, hm, ht⟩ := SingleCore.classify_some env s s1 event hcl
      have hf := SingleCore.filter_congr M s s1 event.Name hr hm
      constructor
      · intro hacc
        have h1 : (s.onEvent M env event).tasks = s.tasks.map Task.Call := by
          simp [SingleCore.onEvent, hcl, hf, hacc, SingleCore.call, ht]
        refine ⟨h1, ?_, ?_⟩
        · rw [h1, List.map_map]
          exact List.map_congr_left (fun t _ => (hcalls t).1)
        · rw [h1, List.map_map]
          exact List.map_congr_left (fun t _ => (hcalls t).2)
      · intro hrej
        simp [SingleCore.onEvent, hcl, hf, hrej, ht]
  · intro ienv s' hinit
    unfold SingleCore.Init at hinit
    split at hinit
    · simp at hinit
    · cases hinit
      simp [List.map_map, Function.comp_def, NewTask]

/-- Witness of C5: the two-destination pipeline after `Init`. A chmod event
reaches no task; creating `/data/file.txt` reaches both tasks once; creating
`/data/file.tmp` reaches none. -/
theorem SingleCore.onEvent_calls_witness :
    ((twoRemoteCore.Init sampleInitEnv).1.onEvent sampleMatch sampleEventEnv
        { Name := "/data/file.txt", Op := Chmod }).tasks =
      (twoRemoteCore.Init sampleInitEnv).1.tasks ∧
    ((twoRemoteCore.Init sampleInitEnv).1.onEvent sampleMatch sampleEventEnv
        { Name := "/data/file.txt", Op := Create }).tasks.map Task.calls = [1, 1] ∧
    ((twoRemoteCore.Init sampleInitEnv).1.onEvent sampleMatch sampleEventEnv
        { Name := "/data/file.tmp", Op := Create }).tasks =
      (twoRemoteCore.Init sampleInitEnv).1.tasks ∧
    (twoRemoteCore.Init sampleInitEnv).1.tasks.map Task.path =
      ["remote:/backup", "other:/mirror"] :=
  ⟨(SingleCore.onEvent_calls sampleMatch sampleEventEnv
      (twoRemoteCore.Init sampleInitEnv).1
      { Name := "/data/file.txt", Op := Chmod }).1 (by decide),
   ((SingleCore.onEvent_calls sampleMatch sampleEventEnv
      (twoRemoteCore.Init sampleInitEnv).1
      { Name := "/data/file.txt", Op := Create }).2.1 (by decide)).1 (by decide) |>.2.1,
   ((SingleCore.onEvent_calls sampleMatch sampleEventEnv
      (twoRemoteCore.Init sampleInitEnv).1
      { Name := "/data/file.tmp", Op := Create }).2.1 (by decide)).2 (by decide),
   ((SingleCore.onEvent_calls sampleMatch sampleEventEnv twoRemoteCore
      { Name := "", Op := 0 }).2.2 sampleInitEnv _ rfl).1⟩

/-! ### Construction of a pipeline -/

theorem compileRules_ok (parseErr : String → Option GoError) (rules : List String)
    (h : ∀ r ∈ rules, parseErr r = none) (i : Nat) (acc : List Regexp) :
    compileRules parseErr i rules acc = .ok (acc ++ rules.map Regexp.mk) := by
  induction rules generalizing i acc with
  | nil => simp [compileRules]
  | cons r rest ih =>
    have hr : parseErr r = none := h r (by simp)
    have hrest : ∀ x ∈ rest, parseErr x = none := fun x hx => h x (by simp [hx])
    simp [compileRules, Compile, hr, ih hrest]

theorem compileRules_error (parseErr : String → Option GoError)
    (pre : List String) (r : String) (post : List String) (e : GoError)
    (hpre : ∀ x ∈ pre, parseErr x = none) (hr : parseErr r = some e)
    (i : Nat) (acc : List Regexp) :
    compileRules parseErr i (pre ++ r :: post) acc =
      .error (.wrapf ("invalid filter_rule[" ++ toString (i + pre.length) ++ "]: "
        ++ e.Error) e) := by
  induction pre generalizing i acc with
  | nil => simp [compileRules, Compile, hr, GoError.wrapping]
  | cons x rest ih =>
    have hx : parseErr x = none := hpre x (by simp)
    have hrest : ∀ y ∈ rest, parseErr y = none := fun y hy => hpre y (by simp [hy])
    have hstep : compileRules parseErr i (x :: rest ++ r :: post) acc =
        compileRules parseErr (i + 1) (rest ++ r :: post) (acc ++ [{ expr := x }]) := by
      simp [compileRules, Compile, hx]
    rw [hstep, ih hrest, List.length_cons, show i + 1 + rest.length = i + (rest.length + 1) by omega]

theorem exists_first_failing {α : Type} (P : α → Prop) (l : List α)
    (h : ¬ ∀ x ∈ l, P x) :
    ∃ pre x post, l = pre ++ x :: post ∧ (∀ y ∈ pre, P y) ∧ ¬ P x := by
  induction l with
  | nil => simp at h
  | cons a rest ih =>
    by_cases ha : P a
    · have h' : ¬ ∀ x ∈ rest, P x := by
        intro hall
        apply h
        intro x hx
        rcases List.mem_cons.1 hx with rfl | hx
        · exact ha
        · exact hall x hx
      obtain ⟨pre, x, post, rfl, hpre, hx⟩ := ih h'
      refine ⟨a :: pre, x, post, rfl, ?_, hx⟩
      intro y hy
      rcases List.mem_cons.1 hy with rfl | hy
      · exact ha
      · exact hpre y hy
    · exact ⟨[], a, rest, rfl, by simp, ha⟩

theorem NewSingleCore_accepted (parseErr : String → Option GoError) (ctxDone : Bool)
    (o : CoreOptions) (h : o.accepted parseErr) :
    NewSingleCore parseErr ctxDone o = (some (o.built ctxDone), none) := by
  obtain ⟨hd, hp, hc, hr, hm, hmr, hall⟩ := h
  have hlen : ¬ o.RemotePath.length = 0 := by simpa [List.length_eq_zero] using hr
  simp only [NewSingleCore, hd, hp, hc, hlen, if_false]
  by_cases hrule : o.FilterRule = []
  · have hm0 : o.FilterMode = "" := by
      rcases hm with h0 | h1 | h1
      · exact h0
      · exact absurd hrule (hmr (Or.inl h1))
      · exact absurd hrule (hmr (Or.inr h1))
    simp [switchFilterMode, hm0, hrule, CoreOptions.built]
  · have hl : ¬ o.FilterRule.length = 0 := by simpa [List.length_eq_zero] using hrule
    have hl' : o.FilterRule.length > 0 := by omega
    rcases hm with h0 | h1 | h1
    · simp [switchFilterMode, h0, hl', compileRules_ok parseErr _ hall, CoreOptions.built]
    · simp [switchFilterMode, h1, hl, hl', compileRules_ok parseErr _ hall,
        CoreOptions.built, filterModeExclude]
    · simp [switchFilterMode, h1, hl, hl', compileRules_ok parseErr _ hall,
        CoreOptions.built, filterModeExclude, filterModeInclude]

theorem NewSingleCore_bad_rule (parseErr : String → Option GoError) (ctxDone : Bool)
    (o : CoreOptions) (pre : List String) (r : String) (post : List String) (e : GoError)
    (hd : o.Dir ≠ "") (hp : o.RclonePath ≠ "") (hc : o.RcloneConfig ≠ "")
    (hr : o.RemotePath ≠ [])
    (hm : o.FilterMode = "" ∨ o.FilterMode = "exclude" ∨ o.FilterMode = "include")
    (hrules : o.FilterRule = pre ++ r :: post)
    (hpre : ∀ x ∈ pre, parseErr x = none) (hbad : parseErr r = some e) :
    NewSingleCore parseErr ctxDone o =
      (none, some (.wrapf ("invalid filter_rule[" ++ toString pre.length ++ "]: "
        ++ e.Error) e)) := by
  have hlen : ¬ o.RemotePath.length = 0 := by simpa [List.length_eq_zero] using hr
  have hl : ¬ o.FilterRule.length = 0 := by simp [hrules]
  have hl' : o.FilterRule.length > 0 := by omega
  have hcomp := compileRules_error parseErr pre r post e hpre hbad 0 []
  rw [← hrules, Nat.zero_add] at hcomp
  simp only [NewSingleCore, hd, hp, hc, hlen, if_false]
  rcases hm with h0 | h1 | h1
  · simp [switchFilterMode, h0, hl', hcomp]
  · simp [switchFilterMode, h1, hl, hl', hcomp, filterModeExclude]
  · simp [switchFilterMode, h1, hl, hl', hcomp, filterModeExclude, filterModeInclude]

theorem NewSingleCore_rejected (parseErr : String → Option GoError) (ctxDone : Bool)
    (o : CoreOptions) (h : ¬ o.accepted parseErr) :
    ∃ e, NewSingleCore parseErr ctxDone o = (none, some e) := by
  by_cases hd : o.Dir = ""
  · exact ⟨.errorf "missing dir", by simp [NewSingleCore, hd]⟩
  by_cases hp : o.RclonePath = ""
  · exact ⟨.errorf "missing rclone_path", by simp [NewSingleCore, hd, hp]⟩
  by_cases hc : o.RcloneConfig = ""
  · exact ⟨.errorf "missing rclone_config", by simp [NewSingleCore, hd, hp, hc]⟩
  by_cases hr : o.RemotePath = []
  · exact ⟨.errorf "missing remote_path", by simp [NewSingleCore, hd, hp, hc, hr]⟩
  have hlen : ¬ o.RemotePath.length = 0 := by simpa [List.length_eq_zero] using hr
  by_cases hm : o.FilterMode = "" ∨ o.FilterMode = "exclude" ∨ o.FilterMode = "include"
  · by_cases hmr : (o.FilterMode = "exclude" ∨ o.FilterMode = "include") → o.FilterRule ≠ []
    · have hall : ¬ ∀ x ∈ o.FilterRule, parseErr x = none :=
        fun hall => h ⟨hd, hp, hc, hr, hm, hmr, hall⟩
      obtain ⟨pre, r, post, hrules, hpre, hnone⟩ :=
        exists_first_failing (fun x => parseErr x = none) _ hall
      obtain ⟨e, hbad⟩ := Option.ne_none_iff_exists'.1 hnone
      exact ⟨_, NewSingleCore_bad_rule parseErr ctxDone o pre r post e hd hp hc hr hm
        hrules hpre hbad⟩
    · have hmode : o.FilterMode = "exclude" ∨ o.FilterMode = "include" := by
        by_contra hcon
        exact hmr (fun hx => absurd hx hcon)
      have hnil : o.FilterRule = [] := by
        by_contra hcon
        exact hmr (fun _ => hcon)
      rcases hmode with h1 | h1
      · exact ⟨.errorf "missing filter_rule", by
          simp [NewSingleCore, hd, hp, hc, hlen, switchFilterMode, h1, hnil,
            filterModeExclude]⟩
      · exact ⟨.errorf "missing filter_rule", by
          simp [NewSingleCore, hd, hp, hc, hlen, switchFilterMode, h1, hnil,
            filterModeExclude, filterModeInclude]⟩
  · have h0 : ¬ o.FilterMode = "" := fun hx => hm (Or.inl hx)
    have h1 : ¬ o.FilterMode = "exclude" := fun hx => hm (Or.inr (Or.inl hx))
    have h2 : ¬ o.FilterMode = "include" := fun hx => hm (Or.inr (Or.inr hx))
    exact ⟨.errorf ("invalid filter_mode: " ++ o.FilterMode), by
      simp [NewSingleCore, hd, hp, hc, hlen, switchFilterMode, h0, h1, h2,
        filterModeExclude, filterModeInclude]⟩

theorem NewSingleCore_some (parseErr : String → Option GoError) (ctxDone : Bool)
    (o : CoreOptions) (s : SingleCore)
    (h : (NewSingleCore parseErr ctxDone o).1 = some s) :
    o.accepted parseErr ∧ s = o.built ctxDone := by
  by_cases hacc : o.accepted parseErr
  · rw [NewSingleCore_accepted parseErr ctxDone o hacc] at h
    exact ⟨hacc, (Option.some.inj h).symm⟩
  · obtain ⟨e, he⟩ := NewSingleCore_rejected parseErr ctxDone o hacc
    rw [he] at h
    cases h

theorem NewSingleCore_no_error (parseErr : String → Option GoError) (ctxDone : Bool)
    (o : CoreOptions) (h : (NewSingleCore parseErr ctxDone o).2 = none) :
    o.accepted parseErr := by
  by_contra hacc
  obtain ⟨e, he⟩ := NewSingleCore_rejected parseErr ctxDone o hacc
  rw [he] at h
  cases h

/-- C6: `NewSingleCore` returns no error exactly when `Dir`, `RclonePath` and
`RcloneConfig` are non-empty, `RemotePath` has an entry, `FilterMode` is empty,
`exclude` or `include`, `FilterRule` is non-empty when the mode is `exclude` or
`include`, and every rule compiles. Without an error a pipeline is returned;
with an error none is. When everything holds except that some rule does not
compile, the error is the message `invalid filter_rule[i]: ...` around the
compiler's error, `i` being the index of the first rule that does not compile. -/
theorem NewSingleCore_validates (parseErr : String → Option GoError) (ctxDone : Bool)
    (o : CoreOptions) :
    ((NewSingleCore parseErr ctxDone o).2 = none ↔
      (o.Dir ≠ "" ∧ o.RclonePath ≠ "" ∧ o.RcloneConfig ≠ "" ∧ o.RemotePath ≠ [] ∧
        (o.FilterMode = "" ∨ o.FilterMode = "exclude" ∨ o.FilterMode = "include") ∧
        ((o.FilterMode = "exclude" ∨ o.FilterMode = "include") → o.FilterRule ≠ []) ∧
        ∀ r ∈ o.FilterRule, parseErr r = none)) ∧
    ((NewSingleCore parseErr ctxDone o).2 = none →
      ∃ s, (NewSingleCore parseErr ctxDone o).1 = some s) ∧
    ((NewSingleCore parseErr ctxDone o).2 ≠ none →
      (NewSingleCore parseErr ctxDone o).1 = none) ∧
    (∀ (pre : List String) (r : String) (post : List String) (e : GoError),
      o.Dir ≠ "" → o.RclonePath ≠ "" → o.RcloneConfig ≠ "" → o.RemotePath ≠ [] →
      (o.FilterMode = "" ∨ o.FilterMode = "exclude" ∨ o.FilterMode = "include") →
      o.FilterRule = pre ++ r :: post → (∀ x ∈ pre, parseErr x = none) →
      parseErr r = some e →
      NewSingleCore parseErr ctxDone o =
        (none, some (.wrapf ("invalid filter_rule[" ++ toString pre.length ++ "]: "
          ++ e.Error) e))) := by
  refine ⟨⟨fun h => NewSingleCore_no_error parseErr ctxDone o h, fun h => ?_⟩, ?_, ?_, ?_⟩
  · rw [NewSingleCore_accepted parseErr ctxDone o h]
  · intro h
    have hacc := NewSingleCore_no_error parseErr ctxDone o h
    exact ⟨_, by rw [NewSingleCore_accepted parseErr ctxDone o hacc]⟩
  · intro h
    by_cases hacc : o.accepted parseErr
    · rw [NewSingleCore_accepted parseErr ctxDone o hacc] at h
      exact absurd rfl h
    · obtain ⟨e, he⟩ := NewSingleCore_rejected parseErr ctxDone o hacc
      rw [he]
  · intro pre r post e hd hp hc hr hm hrules hpre hbad
    exact NewSingleCore_bad_rule parseErr ctxDone o pre r post e hd hp hc hr hm hrules
      hpre hbad

/-- Witness of C6: the scenario is accepted; with a second rule that does not
compile the error names index 1. -/
theorem NewSingleCore_validates_witness :
    (NewSingleCore acceptAll false scenarioOptions).2 = none ∧
    (∃ s, (NewSingleCore acceptAll false scenarioOptions).1 = some s) ∧
    NewSingleCore rejectParen false badRuleOptions =
      (none, some (.wrapf "invalid filter_rule[1]: missing closing )"
        (.errorf "missing closing )"))) :=
  ⟨(NewSingleCore_validates acceptAll false scenarioOptions).1.2
      ⟨by decide, by decide, by decide, by decide, by decide, by decide, fun _ _ => rfl⟩,
   (NewSingleCore_validates acceptAll false scenarioOptions).2.1 rfl,
   (NewSingleCore_validates rejectParen false badRuleOptions).2.2.2
      ["\\.tmp$"] "(" [] (.errorf "missing closing )")
      (by decide) (by decide) (by decide) (by decide) (by decide) rfl
      (by decide) rfl⟩

/-! ### The sync command -/

theorem SingleCore.filterArgs_foldl (mode : String) (rules : List Regexp)
    (acc : List String) :
    rules.foldl
      (fun args r =>
        if mode = filterModeInclude then
          args ++ ["--include", "'" ++ r.expr ++ "'"]
        else
          args ++ ["--exclude", "'" ++ r.expr ++ "'"])
      acc =
    acc ++ rules.flatMap (fun r =>
      [if mode = filterModeInclude then "--include" else "--exclude",
        "'" ++ r.expr ++ "'"]) := by
  induction rules generalizing acc with
  | nil => simp
  | cons r rest ih =>
    rw [List.foldl_cons, ih]
    by_cases hm : mode = filterModeInclude <;> simp [hm, List.flatMap_cons]

theorem SingleCore.newCommand_Args (environ : List String) (s : SingleCore)
    (remotePath : String) :
    (s.newCommand environ remotePath).Args =
      [s.rclonePath, "sync", "-v", "--config", s.rcloneConfig, s.dir, remotePath] ++
        s.filterRules.flatMap (fun r =>
          [if s.filterMode = filterModeInclude then "--include" else "--exclude",
            "'" ++ r.expr ++ "'"]) := by
  by_cases hl : s.filterRules.length > 0
  · simp only [SingleCore.newCommand, hl, if_true, SingleCore.filterArgs,
      SingleCore.filterArgs_foldl, CommandContext]
    simp
  · have hnil : s.filterRules = [] := by
      apply List.eq_nil_of_length_eq_zero
      omega
    simp [SingleCore.newCommand, hnil, CommandContext]

/-- C7: for a pipeline returned by `NewSingleCore` and any destination, the
argument vector of the sync command is the tool path, `sync`, `-v`, `--config`,
the tool config, the local directory and the destination, followed for each
configured rule, in order, by `--include` (mode `include`) or `--exclude` (mode
`exclude`) and the rule's pattern text between single quotes; the stored mode is
one of the two. For `/data`, `remote:/backup`, mode `exclude` and the rule
`\.tmp$` the vector ends with `--exclude` and the quoted `\.tmp$`. -/
theorem SingleCore.newCommand_vector (parseErr : String → Option GoError)
    (ctxDone : Bool) (o : CoreOptions) (s : SingleCore) (environ : List String)
    (remotePath : String) (h : (NewSingleCore parseErr ctxDone o).1 = some s) :
    (s.filterMode = filterModeInclude ∨ s.filterMode = filterModeExclude) ∧
    (s.filterMode = filterModeInclude →
      (s.newCommand environ remotePath).Args =
        [o.RclonePath, "sync", "-v", "--config", o.RcloneConfig, o.Dir, remotePath] ++
          o.FilterRule.flatMap (fun r => ["--include", "'" ++ r ++ "'"])) ∧
    (s.filterMode = filterModeExclude →
      (s.newCommand environ remotePath).Args =
        [o.RclonePath, "sync", "-v", "--config", o.RcloneConfig, o.Dir, remotePath] ++
          o.FilterRule.flatMap (fun r => ["--exclude", "'" ++ r ++ "'"])) ∧
    (o.Dir = "/data" → o.FilterMode = "exclude" → o.FilterRule = ["\\.tmp$"] →
      (s.newCommand environ "remote:/backup").Args =
        [o.RclonePath, "sync", "-v", "--config", o.RcloneConfig, "/data", "remote:/backup",
          "--exclude", "'\\.tmp$'"]) := by
  obtain ⟨hacc, rfl⟩ := NewSingleCore_some parseErr ctxDone o s h
  obtain ⟨-, -, -, -, hm, -, -⟩ := hacc
  refine ⟨?_, ?_, ?_, ?_⟩
  · rcases hm with h0 | h0 | h0 <;>
      simp [CoreOptions.built, h0, filterModeExclude, filterModeInclude]
  · intro hinc
    rw [SingleCore.newCommand_Args, hinc]
    simp [CoreOptions.built, List.flatMap_map]
  · intro hexc
    have hne : filterModeExclude ≠ filterModeInclude := by decide
    rw [SingleCore.newCommand_Args, hexc]
    simp [CoreOptions.built, List.flatMap_map, hne]
  · intro hd hmode hrule
    rw [SingleCore.newCommand_Args]
    simp [CoreOptions.built, hd, hmode, hrule, filterModeInclude]

/-- Witness of C7: the command of the scenario pipeline. -/
theorem SingleCore.newCommand_vector_witness :
    (NewSingleCore acceptAll false scenarioOptions).1 = some (scenarioOptions.built false) ∧
    ((scenarioOptions.built false).newCommand [] "remote:/backup").Args =
      ["rclone", "sync", "-v", "--config", "rclone.conf", "/data", "remote:/backup",
        "--exclude", "'\\.tmp$'"] :=
  ⟨rfl, (SingleCore.newCommand_vector acceptAll false scenarioOptions
    (scenarioOptions.built false) [] "remote:/backup" rfl).2.2.2 rfl rfl rfl⟩

/-- C10, as the code behaves: the pipeline built from a configuration with
the extra argument `--dry-run` stores it in `args`, yet the argument vector of
its sync command does not contain it; `newCommand` does not read `args` at all. -/
theorem SingleCore.newCommand_ignores_args :
    (∃ s, (NewSingleCore acceptAll false extraArgOptions).1 = some s ∧
      s.args = ["--dry-run"] ∧
      (s.newCommand [] "remote:/backup").Args =
        ["rclone", "sync", "-v", "--config", "rclone.conf", "/data", "remote:/backup",
          "--exclude", "'\\.tmp$'"] ∧
      "--dry-run" ∉ (s.newCommand [] "remote:/backup").Args) ∧
    (∀ (s : SingleCore) (a environ : List String) (remotePath : String),
      ({ s with args := a } : SingleCore).newCommand environ remotePath =
        s.newCommand environ remotePath) :=
  ⟨⟨extraArgOptions.built false, rfl, rfl, rfl, by decide⟩, fun _ _ _ _ => rfl⟩

/-! ### The rule-set invariant -/

/-- C9 fails as stated: with the mode left unset and no rule, construction
succeeds, the stored mode is `exclude` and the compiled rule list is empty. -/
theorem NewSingleCore_unset_mode_empty_rules :
    ∃ s, NewSingleCore acceptAll false unsetModeOptions = (some s, none) ∧
      s.filterMode = filterModeExclude ∧ s.filterRules = [] :=
  ⟨unsetModeOptions.built false, rfl, rfl, rfl⟩

/-- C9, amended: on a pipeline returned by `NewSingleCore` whose stored mode is
`include` or `exclude`, the compiled rule list is non-empty, except when the
options leave `FilterMode` unset and give no rule. -/
theorem NewSingleCore_rules_nonempty (parseErr : String → Option GoError)
    (ctxDone : Bool) (o : CoreOptions) (s : SingleCore)
    (h : (NewSingleCore parseErr ctxDone o).1 = some s)
    (_hm : s.filterMode = filterModeInclude ∨ s.filterMode = filterModeExclude)
    (hx : o.FilterMode ≠ "" ∨ o.FilterRule ≠ []) :
    s.filterRules ≠ [] := by
  obtain ⟨hacc, rfl⟩ := NewSingleCore_some parseErr ctxDone o s h
  obtain ⟨-, -, -, -, hmode, hmr, -⟩ := hacc
  have hne : o.FilterRule ≠ [] := by
    rcases hx with hset | hrule
    · rcases hmode with h0 | h1 | h1
      · exact absurd h0 hset
      · exact hmr (Or.inl h1)
      · exact hmr (Or.inr h1)
    · exact hrule
  simpa [CoreOptions.built] using hne

/-- Witness of C9 amended: the mode left unset with one rule given; the stored
mode is `exclude` and the rule list is not empty. -/
theorem NewSingleCore_rules_nonempty_witness :
    (NewSingleCore acceptAll false unsetModeWithRule).1 =
      some (unsetModeWithRule.built false) ∧
    (unsetModeWithRule.built false).filterMode = filterModeExclude ∧
    (unsetModeWithRule.built false).filterRules ≠ [] :=
  ⟨rfl, rfl, NewSingleCore_rules_nonempty acceptAll false unsetModeWithRule
    (unsetModeWithRule.built false) rfl (Or.inr rfl) (Or.inr (by decide))⟩

/-! ### Construction of a group -/

theorem set_length_append {α : Type} (done : List α) (a x : α) (tail : List α) :
    (done ++ a :: tail).set done.length x = done ++ x :: tail := by
  induction done with
  | nil => rfl
  | cons d rest ih => simp [List.set, ih]

theorem newCoreGroupLoop_ok (parseErr : String → Option GoError) (ctxDone : Bool)
    (options : List CoreOptions)
    (hall : ∀ o ∈ options, (NewSingleCore parseErr ctxDone o).2 = none)
    (g : CoreGroup) (doneC : List (Option SingleCore)) (doneD : List String)
    (hc : g.cores = doneC ++ List.replicate options.length none)
    (hd : g.dirs = doneD ++ List.replicate options.length "")
    (hdl : doneD.length = doneC.length) :
    newCoreGroupLoop parseErr ctxDone doneC.length options g =
      (some { g with
          cores := doneC ++ options.map (fun o => (NewSingleCore parseErr ctxDone o).1)
          dirs := doneD ++ options.map (fun o => o.Dir) }, none) := by
  induction options generalizing g doneC doneD with
  | nil =>
    obtain ⟨c, d, cs⟩ := g
    simp only [List.length_nil, List.replicate_zero, List.append_nil] at hc hd
    subst hc hd
    simp [newCoreGroupLoop]
  | cons o rest ih =>
    have ho : (NewSingleCore parseErr ctxDone o).2 = none := hall o (by simp)
    have hrest : ∀ x ∈ rest, (NewSingleCore parseErr ctxDone x).2 = none :=
      fun x hx => hall x (by simp [hx])
    have hstep : newCoreGroupLoop parseErr ctxDone doneC.length (o :: rest) g =
        newCoreGroupLoop parseErr ctxDone (doneC.length + 1) rest
          { g with
            cores := g.cores.set doneC.length (NewSingleCore parseErr ctxDone o).1
            dirs := g.dirs.set doneC.length o.Dir } := by
      rw [newCoreGroupLoop]
      split
      · rename_i heq
        rw [heq] at ho
        cases ho
      · rename_i heq
        rw [heq]
    have hc' : g.cores.set doneC.length (NewSingleCore parseErr ctxDone o).1 =
        (doneC ++ [(NewSingleCore parseErr ctxDone o).1]) ++
          List.replicate rest.length none := by
      rw [hc, List.length_cons, List.replicate_succ, set_length_append]
      simp
    have hd' : g.dirs.set doneC.length o.Dir =
        (doneD ++ [o.Dir]) ++ List.replicate rest.length "" := by
      rw [hd, List.length_cons, List.replicate_succ, ← hdl, set_length_append]
      simp
    have hlen : (doneC ++ [(NewSingleCore parseErr ctxDone o).1]).length =
        doneC.length + 1 := by simp
    rw [hstep, ← hlen]
    rw [ih hrest _ (doneC ++ [(NewSingleCore parseErr ctxDone o).1]) (doneD ++ [o.Dir])
      hc' hd' (by simp [hdl])]
    simp

theorem newCoreGroupLoop_error (parseErr : String → Option GoError) (ctxDone : Bool)
    (pre : List CoreOptions) (o : CoreOptions) (post : List CoreOptions) (e : GoError)
    (hpre : ∀ x ∈ pre, (NewSingleCore parseErr ctxDone x).2 = none)
    (ho : (NewSingleCore parseErr ctxDone o).2 = some e) (i : Nat) (g : CoreGroup) :
    newCoreGroupLoop parseErr ctxDone i (pre ++ o :: post) g =
      (none, some (.wrapf ("create core[" ++ toString (i + pre.length) ++ "] failed: "
        ++ e.Error) e)) := by
  induction pre generalizing i g with
  | nil =>
    rw [List.nil_append, newCoreGroupLoop]
    split
    · rename_i heq
      rw [heq] at ho
      cases ho
      simp [GoError.wrapping]
    · rename_i heq
      rw [heq] at ho
      cases ho
  | cons x rest ih =>
    have hx : (NewSingleCore parseErr ctxDone x).2 = none := hpre x (by simp)
    have hrest : ∀ y ∈ rest, (NewSingleCore parseErr ctxDone y).2 = none :=
      fun y hy => hpre y (by simp [hy])
    rw [List.cons_append, newCoreGroupLoop]
    split
    · rename_i heq
      rw [heq] at hx
      cases hx
    · rw [ih hrest, List.length_cons,
        show i + 1 + rest.length = i + (rest.length + 1) by omega]

/-- C8: on a non-empty list of entries. When the entry at position `i` is the
first that `NewSingleCore` rejects, `NewCoreGroup` returns no group and the error
`create core[i] failed: ...` around that entry's error, and the pipelines built
for the earlier entries have no task and no watcher (only `Init` starts them).
When some entry is rejected, no group is returned and the error is set. When
every entry is accepted, the group is returned with, slot by slot and in order,
the pipeline of each entry. -/
theorem NewCoreGroup_validates (parseErr : String → Option GoError) (ctxDone : Bool)
    (options : List CoreOptions) (hne : options ≠ []) :
    (∀ (pre : List CoreOptions) (o : CoreOptions) (post : List CoreOptions) (e : GoError),
      options = pre ++ o :: post →
      (∀ x ∈ pre, (NewSingleCore parseErr ctxDone x).2 = none) →
      (NewSingleCore parseErr ctxDone o).2 = some e →
      NewCoreGroup parseErr ctxDone options =
        (none, some (.wrapf ("create core[" ++ toString pre.length ++ "] failed: "
          ++ e.Error) e)) ∧
      ∀ x ∈ pre, ∃ s, (NewSingleCore parseErr ctxDone x).1 = some s ∧
        s.tasks = [] ∧ s.watcher = none) ∧
    ((∃ o ∈ options, (NewSingleCore parseErr ctxDone o).2 ≠ none) →
      (NewCoreGroup parseErr ctxDone options).1 = none ∧
      (NewCoreGroup parseErr ctxDone options).2 ≠ none) ∧
    ((∀ o ∈ options, (NewSingleCore parseErr ctxDone o).2 = none) →
      ∃ g, NewCoreGroup parseErr ctxDone options = (some g, none) ∧
        g.cores = options.map (fun o => (NewSingleCore parseErr ctxDone o).1) ∧
        (∀ c ∈ g.cores, c ≠ none) ∧
        g.cores.length = options.length ∧
        g.dirs = options.map (fun o => o.Dir)) := by
  have hlen : ¬ options.length = 0 := by simpa [List.length_eq_zero] using hne
  have hfail : ∀ (pre : List CoreOptions) (o : CoreOptions) (post : List CoreOptions)
      (e : GoError), options = pre ++ o :: post →
      (∀ x ∈ pre, (NewSingleCore parseErr ctxDone x).2 = none) →
      (NewSingleCore parseErr ctxDone o).2 = some e →
      NewCoreGroup parseErr ctxDone options =
        (none, some (.wrapf ("create core[" ++ toString pre.length ++ "] failed: "
          ++ e.Error) e)) := by
    intro pre o post e hopt hpre ho
    have hl := newCoreGroupLoop_error parseErr ctxDone pre o post e hpre ho 0
    simp only [NewCoreGroup, hlen, if_false]
    rw [hopt, hl, Nat.zero_add]
  refine ⟨?_, ?_, ?_⟩
  · intro pre o post e hopt hpre ho
    refine ⟨hfail pre o post e hopt hpre ho, ?_⟩
    intro x hx
    have hacc := NewSingleCore_no_error parseErr ctxDone x (hpre x hx)
    exact ⟨x.built ctxDone, by rw [NewSingleCore_accepted parseErr ctxDone x hacc], rfl, rfl⟩
  · rintro ⟨o, ho, hbad⟩
    have hnot : ¬ ∀ x ∈ options, (NewSingleCore parseErr ctxDone x).2 = none :=
      fun hall => hbad (hall o ho)
    obtain ⟨pre, x, post, hopt, hpre, hx⟩ :=
      exists_first_failing (fun x => (NewSingleCore parseErr ctxDone x).2 = none) options hnot
    obtain ⟨e, he⟩ := Option.ne_none_iff_exists'.1 hx
    rw [hfail pre x post e hopt hpre he]
    simp
  · intro hall
    have hl := newCoreGroupLoop_ok parseErr ctxDone options hall
      { ctxDone := ctxDone, dirs := List.replicate options.length "",
        cores := List.replicate options.length none } [] [] rfl rfl rfl
    refine ⟨CoreGroup.mk ctxDone (options.map (fun o => o.Dir))
        (options.map (fun o => (NewSingleCore parseErr ctxDone o).1)),
      ?_, rfl, ?_, by simp, rfl⟩
    · simp only [NewCoreGroup, hlen, if_false]
      rw [List.length_nil] at hl
      rw [hl]
      simp
    · intro c hc
      simp only [List.mem_map] at hc
      obtain ⟨o, ho, rfl⟩ := hc
      have hacc := NewSingleCore_no_error parseErr ctxDone o (hall o ho)
      rw [NewSingleCore_accepted parseErr ctxDone o hacc]
      simp

/-- Witness of C8: of three entries the third has a rule that does not
compile, so the error names index 2 and wraps the error of that entry; the first
two entries alone give a group of two pipelines. -/
theorem NewCoreGroup_validates_witness :
    NewCoreGroup rejectParen false threeEntries =
      (none, some (.wrapf "create core[2] failed: invalid filter_rule[1]: missing closing )"
        (.wrapf "invalid filter_rule[1]: missing closing )"
          (.errorf "missing closing )")))) ∧
    (∃ g, NewCoreGroup rejectParen false [scenarioOptions, twoRemoteOptions] = (some g, none) ∧
      g.cores = [some (scenarioOptions.built false), some (twoRemoteOptions.built false)]) :=
  ⟨((NewCoreGroup_validates rejectParen false threeEntries (by decide)).1
      [scenarioOptions, twoRemoteOptions] badRuleOptions []
      (.wrapf "invalid filter_rule[1]: missing closing )" (.errorf "missing closing )"))
      rfl (by decide) rfl).1,
   let ⟨g, h1, h2, _⟩ :=
     (NewCoreGroup_validates rejectParen false [scenarioOptions, twoRemoteOptions]
       (by decide)).2.2 (by decide)
   ⟨g, h1, h2⟩⟩

end Autosync
